import Mathlib

/-!
Shallow embedding of `src/enumutil.rs` from the libvirt-rust repository.

The module provides an open enumeration container `Enum<E, I>` with two
variants, `Known(E)` and `Unknown(I)`, together with a `RawEnum` trait
(`from_raw : I -> Option E`, `to_raw : E -> I`) and a family of macros
(`impl_enum!`, `impl_enum_from!`, `impl_enum_to!`, `impl_enum_display!`)
that generate the trait implementation for a declared list of
`raw_constant => Variant` pairs.  The test module instantiates the macro
with the `Example` enumeration over pairs `(0, Foo), (1, Bar), (2, Baz)`
at raw type `u32`.

Design of the embedding:
* `Enum E I` is an inductive with constructors `Known` and `Unknown`,
  mirroring the Rust sum type.
* The raw type `u32` is embedded as `Nat`; the code only compares raw
  values for equality, so no wrap-around arithmetic is involved.
* `unwrap` panics on `Unknown` in Rust; the panic is embedded as `none`
  of an `Option`-returning function.
* `std::any::type_name::<E>()` has no guaranteed output; the `Display`
  implementation is embedded as a function parameterised by the type
  name string, and theorems about rendering quantify over every type
  name containing the unqualified enumeration name.
* The expansion of `impl_enum_from!` is a `match` over the declared raw
  constants with a final `_ => None` arm; its first-match semantics over
  an arbitrary declaration list is embedded as `firstMatch`.
-/

namespace Enumutil

/-- The `RawEnum<I>` trait of `enumutil.rs`: conversion between a
symbolic enumeration type and its raw integer representation. -/
class RawEnum (E : Type) (I : Type) where
  from_raw : I → Option E
  to_raw : E → I

/-- The `Enum<E, I>` container of `enumutil.rs`: either a resolved
symbolic variant or a preserved unrecognized raw value. -/
inductive Enum (E : Type) (I : Type) where
  | Known (e : E)
  | Unknown (v : I)
deriving DecidableEq, Repr

/-- The `UnknownEnumError<I>` struct of `enumutil.rs`. -/
structure UnknownEnumError (I : Type) where
  value : I
deriving DecidableEq, Repr

namespace Enum

variable {E I : Type}

/-- `Enum::unwrap`: returns the symbolic value when `Known`; panics when
`Unknown`.  The panic is embedded as `none`. -/
def unwrap : Enum E I → Option E
  | .Known k => some k
  | .Unknown _ => none

/-- `Enum::unwrap_or`. -/
def unwrap_or (x : Enum E I) (def_ : E) : E :=
  match x with
  | .Known k => k
  | .Unknown _ => def_

/-- `Enum::is_known`. -/
def is_known : Enum E I → Bool
  | .Known _ => true
  | .Unknown _ => false

/-- `Enum::is_known_and`. -/
def is_known_and (x : Enum E I) (f : E → Bool) : Bool :=
  match x with
  | .Known k => f k
  | .Unknown _ => false

/-- `Enum::is_unknown`. -/
def is_unknown : Enum E I → Bool
  | .Known _ => false
  | .Unknown _ => true

/-- `Enum::is_unknown_and`. -/
def is_unknown_and (x : Enum E I) (f : I → Bool) : Bool :=
  match x with
  | .Known _ => false
  | .Unknown u => f u

/-- `Enum::is`: true iff `Known` and equal to the candidate. -/
def is [DecidableEq E] (x : Enum E I) (want : E) : Bool :=
  match x with
  | .Known k => want = k
  | .Unknown _ => false

/-- `Enum::is_any`: true iff `Known` and contained in the candidate
vector (Rust `Vec::contains`). -/
def is_any [DecidableEq E] (x : Enum E I) (want : List E) : Bool :=
  match x with
  | .Known k => want.contains k
  | .Unknown _ => false

/-- `Enum::known`. -/
def known : Enum E I → Option E
  | .Known k => some k
  | .Unknown _ => none

/-- `Enum::unknown`. -/
def unknown : Enum E I → Option I
  | .Known _ => none
  | .Unknown u => some u

/-- `Enum::from_raw`: wraps a hit of the trait-level `from_raw` as
`Known`, a miss as `Unknown(raw)`. -/
def from_raw [RawEnum E I] (raw : I) : Enum E I :=
  match RawEnum.from_raw raw with
  | some e => .Known e
  | none => .Unknown raw

/-- `Enum::to_raw`: `Known(e)` yields `e`'s raw constant, `Unknown(v)`
yields `v` unchanged. -/
def to_raw [RawEnum E I] : Enum E I → I
  | .Known e => RawEnum.to_raw e
  | .Unknown v => v

/-- The `From<Enum<E, I>> for Result<E, UnknownEnumError<I>>` impl:
`Known` becomes success, `Unknown(v)` becomes failure carrying `v`. -/
def toResult : Enum E I → Except (UnknownEnumError I) E
  | .Known e => .ok e
  | .Unknown v => .error ⟨v⟩

/-- The `Display` impl for `Enum<E, I>`: `Known(e)` delegates to `e`'s
rendering, `Unknown(v)` writes `type_name::<E>()` followed by the raw
value in parentheses.  The type-name string (whose exact spelling Rust
does not guarantee) is an explicit parameter. -/
def render (typeName : String) (showE : E → String) (showI : I → String) :
    Enum E I → String
  | .Known e => showE e
  | .Unknown v => typeName ++ "(" ++ showI v ++ ")"

end Enum

/-- First-match resolution over a declared list of
`raw_constant => Variant` pairs: the expansion of `impl_enum_from!` is a
`match` with one arm per declared pair, in declaration order, and a
final `_ => None` arm. -/
def firstMatch {E I : Type} [DecidableEq I] (pairs : List (I × E)) (raw : I) :
    Option E :=
  match pairs with
  | [] => none
  | (k, v) :: rest => if k = raw then some v else firstMatch rest raw

/-! ### The `Example` enumeration of the test module

Declared by `impl_enum! { enum: Example, raw: u32,
match: { FOO => Foo, BAR => Bar, BAZ => Baz } }` with
`FOO = 0`, `BAR = 1`, `BAZ = 2`. -/

def FOO : Nat := 0
def BAR : Nat := 1
def BAZ : Nat := 2

inductive Example where
  | Foo
  | Bar
  | Baz
deriving DecidableEq, Repr

/-- Expansion of `impl_enum_from!` for `Example`: a match over the
declared constants in declaration order with a trailing `_ => None`. -/
def Example.from_raw (raw : Nat) : Option Example :=
  if raw = FOO then some .Foo
  else if raw = BAR then some .Bar
  else if raw = BAZ then some .Baz
  else none

/-- Expansion of `impl_enum_to!` for `Example`. -/
def Example.to_raw : Example → Nat
  | .Foo => FOO
  | .Bar => BAR
  | .Baz => BAZ

/-- `stringify!($type)` for each variant of `Example`. -/
def Example.variantName : Example → String
  | .Foo => "Foo"
  | .Bar => "Bar"
  | .Baz => "Baz"

/-- Rust `str::to_lowercase`, embedded as per-character lowering (exact
for the ASCII variant identifiers it is applied to). -/
def toLowercase (s : String) : String :=
  ⟨s.data.map Char.toLower⟩

/-- Expansion of `impl_enum_display!` for `Example`: each variant
renders as `stringify!($type).to_lowercase()`. -/
def Example.display (e : Example) : String :=
  toLowercase (Example.variantName e)

instance : RawEnum Example Nat where
  from_raw := Example.from_raw
  to_raw := Example.to_raw

/-- `type ExampleEnum = Enum<Example, u32>`. -/
abbrev ExampleEnum := Enum Example Nat

/-- The declared `(raw, Variant)` pairs of `Example`, in declaration
order. -/
def examplePairs : List (Nat × Example) :=
  [(FOO, .Foo), (BAR, .Bar), (BAZ, .Baz)]

/-- Substring containment, used to state rendering claims: `p` occurs
contiguously inside `s`. -/
def SubstrOf (p s : String) : Prop :=
  ∃ a b : String, s = a ++ p ++ b

end Enumutil

namespace Enumutil

/-! ### Helper lemmas -/

theorem rawEnum_from_raw_example (r : Nat) :
    (RawEnum.from_raw r : Option Example) = Example.from_raw r := rfl

theorem rawEnum_to_raw_example (e : Example) :
    (RawEnum.to_raw e : Nat) = Example.to_raw e := rfl

theorem example_from_raw_of_not_declared {r : Nat}
    (h : r ∉ ([FOO, BAR, BAZ] : List Nat)) : Example.from_raw r = none := by
  simp only [List.mem_cons, List.not_mem_nil, or_false, not_or] at h
  simp [Example.from_raw, h.1, h.2.1, h.2.2]

/-! ### Claims -/

/-- C1: for every raw integer `r`, `Enum::from_raw(r).to_raw() == r`;
and for every `r` not among the declared raw constants of `Example`,
`Enum::from_raw(r).is_unknown() == true`. -/
theorem c1_raw_round_trip :
    (∀ r : Nat, (Enum.from_raw r : ExampleEnum).to_raw = r) ∧
    (∀ r : Nat, r ∉ ([FOO, BAR, BAZ] : List Nat) →
      (Enum.from_raw r : ExampleEnum).is_unknown = true) := by
  constructor
  · intro r
    simp only [Enum.from_raw, rawEnum_from_raw_example, Example.from_raw,
      FOO, BAR, BAZ]
    split_ifs with h0 h1 h2 <;>
      simp_all [Enum.to_raw, rawEnum_to_raw_example, Example.to_raw, FOO, BAR,
        BAZ]
  · intro r hr
    simp [Enum.from_raw, rawEnum_from_raw_example,
      example_from_raw_of_not_declared hr, Enum.is_unknown]

theorem c1_raw_round_trip_witness :
    (Enum.from_raw 10 : ExampleEnum).to_raw = 10 ∧
    ((10 : Nat) ∉ ([FOO, BAR, BAZ] : List Nat) ∧
      (Enum.from_raw 10 : ExampleEnum).is_unknown = true) :=
  ⟨c1_raw_round_trip.1 10, by decide, c1_raw_round_trip.2 10 (by decide)⟩

/-- C2: every declared pair of `Example` satisfies
`from_raw(raw) == Some(Variant)` and `Variant.to_raw() == raw`, and for
every variant `v`, `from_raw(to_raw(v)) == Some(v)`. -/
theorem c2_known_round_trip :
    (Example.from_raw FOO = some Example.Foo ∧ Example.to_raw Example.Foo = FOO) ∧
    (Example.from_raw BAR = some Example.Bar ∧ Example.to_raw Example.Bar = BAR) ∧
    (Example.from_raw BAZ = some Example.Baz ∧ Example.to_raw Example.Baz = BAZ) ∧
    (∀ v : Example, Example.from_raw (Example.to_raw v) = some v) :=
  ⟨⟨rfl, rfl⟩, ⟨rfl, rfl⟩, ⟨rfl, rfl⟩, fun v => by cases v <;> rfl⟩

/-- C3: the `Enum → Result` conversion maps `Known(e)` to success
carrying exactly `e`, and `Unknown(v)` to failure whose
`UnknownEnumError::value()` returns exactly `v`; the error arises on no
other path. -/
theorem c3_result_fidelity {E I : Type} :
    (∀ e : E, (Enum.Known e : Enum E I).toResult = Except.ok e) ∧
    (∀ v : I, (Enum.Unknown v : Enum E I).toResult =
        Except.error ⟨v⟩ ∧ (UnknownEnumError.mk v).value = v) ∧
    (∀ (x : Enum E I) (err : UnknownEnumError I),
        x.toResult = Except.error err → x = Enum.Unknown err.value) := by
  refine ⟨fun e => rfl, fun v => ⟨rfl, rfl⟩, fun x err h => ?_⟩
  cases x with
  | Known e => simp [Enum.toResult] at h
  | Unknown v =>
    cases err with
    | mk w =>
      simp only [Enum.toResult, Except.error.injEq, UnknownEnumError.mk.injEq] at h
      subst h
      rfl

theorem c3_result_fidelity_witness :
    (Enum.Unknown 8 : ExampleEnum) =
      Enum.Unknown ((UnknownEnumError.mk 8).value) :=
  c3_result_fidelity.2.2 (Enum.Unknown 8) ⟨8⟩ rfl

/-- C4: `Enum::unwrap` returns the payload on `Known` and panics
(embedded as `none`) exactly on `Unknown`; in particular
`Enum::from_raw(10).unwrap()` for `Example` aborts rather than
returning a symbolic value. -/
theorem c4_unwrap_panics_on_unknown :
    (∀ {E I : Type} (k : E), (Enum.Known k : Enum E I).unwrap = some k) ∧
    (∀ {E I : Type} (x : Enum E I), x.unwrap = none ↔ x.is_unknown = true) ∧
    (Enum.from_raw 10 : ExampleEnum).unwrap = none := by
  refine ⟨fun k => rfl, fun x => ?_, by decide⟩
  cases x <;> simp [Enum.unwrap, Enum.is_unknown]

/-- C5: rendering is deterministic: `Known(Bar)` of `Example` renders as
the lower-cased identifier `"bar"` regardless of the type name, and
`Unknown(8)` renders as a string containing both the substring
`"Example"` (for any type name containing it) and the substring
`"(8)"`. -/
theorem c5_render_deterministic :
    (∀ tn : String,
      Enum.render tn Example.display toString
        (Enum.Known Example.Bar : ExampleEnum) = "bar") ∧
    (∀ tn : String, SubstrOf "Example" tn →
      SubstrOf "Example"
        (Enum.render tn Example.display toString
          (Enum.from_raw 8 : ExampleEnum)) ∧
      SubstrOf "(8)"
        (Enum.render tn Example.display toString
          (Enum.from_raw 8 : ExampleEnum))) := by
  constructor
  · intro tn
    rfl
  · intro tn ⟨a, b, hab⟩
    have hren : Enum.render tn Example.display toString
        (Enum.from_raw 8 : ExampleEnum) = tn ++ "(8)" := by
      show tn ++ "(" ++ toString (8 : Nat) ++ ")" = tn ++ "(8)"
      rw [String.append_assoc, String.append_assoc]
      rfl
    constructor
    · exact ⟨a, b ++ "(8)", by
        rw [hren, hab, String.append_assoc, String.append_assoc]⟩
    · exact ⟨tn, "", by rw [hren, String.append_empty]⟩

theorem c5_render_deterministic_witness :
    SubstrOf "Example" "Example" ∧
    (SubstrOf "Example"
        (Enum.render "Example" Example.display toString
          (Enum.from_raw 8 : ExampleEnum)) ∧
      SubstrOf "(8)"
        (Enum.render "Example" Example.display toString
          (Enum.from_raw 8 : ExampleEnum))) :=
  have h : SubstrOf "Example" "Example" :=
    ⟨"", "", by rw [String.empty_append, String.append_empty]⟩
  ⟨h, c5_render_deterministic.2 "Example" h⟩

/-- C6: every `Enum<E, I>` value satisfies the exhaustive partition:
exactly one of `is_known()` and `is_unknown()` is true, and exactly one
of `known()` and `unknown()` is non-empty. -/
theorem c6_exhaustive_partition {E I : Type} (x : Enum E I) :
    (x.is_known = true ↔ ¬ x.is_unknown = true) ∧
    (x.known.isSome = true ↔ ¬ x.unknown.isSome = true) := by
  cases x <;>
    simp [Enum.is_known, Enum.is_unknown, Enum.known, Enum.unknown]

/-- C7: `is(c)` is true iff the value is `Known(k)` with `k == c`, and
`is_any(cs)` is true iff the value is `Known(k)` with `k` an element of
`cs`; both are false on every `Unknown` value and `is_any` is false on
the empty collection. -/
theorem c7_is_and_is_any {E I : Type} [DecidableEq E] :
    (∀ (x : Enum E I) (c : E), x.is c = true ↔ x = Enum.Known c) ∧
    (∀ (x : Enum E I) (cs : List E),
      x.is_any cs = true ↔ ∃ k, x = Enum.Known k ∧ k ∈ cs) ∧
    (∀ (v : I) (c : E), (Enum.Unknown v : Enum E I).is c = false) ∧
    (∀ (v : I) (cs : List E),
      (Enum.Unknown v : Enum E I).is_any cs = false) ∧
    (∀ x : Enum E I, x.is_any [] = false) := by
  refine ⟨fun x c => ?_, fun x cs => ?_, fun v c => rfl, fun v cs => rfl,
    fun x => ?_⟩
  · cases x <;> simp [Enum.is, eq_comm]
  · cases x <;> simp [Enum.is_any]
  · cases x <;> simp [Enum.is_any]

/-- C8: `is_known_and(p)` applies `p` to the payload of `Known` and is
false on `Unknown`; `is_unknown_and(p)` applies `p` to the payload of
`Unknown` and is false on `Known`. -/
theorem c8_predicate_accessors {E I : Type} :
    (∀ (k : E) (p : E → Bool),
      (Enum.Known k : Enum E I).is_known_and p = p k) ∧
    (∀ (u : I) (p : E → Bool),
      (Enum.Unknown u : Enum E I).is_known_and p = false) ∧
    (∀ (u : I) (p : I → Bool),
      (Enum.Unknown u : Enum E I).is_unknown_and p = p u) ∧
    (∀ (k : E) (p : I → Bool),
      (Enum.Known k : Enum E I).is_unknown_and p = false) :=
  ⟨fun _ _ => rfl, fun _ _ => rfl, fun _ _ => rfl, fun _ _ => rfl⟩

theorem firstMatch_eq_some_iff {E I : Type} [DecidableEq I]
    {l : List (I × E)} (hnd : (l.map Prod.fst).Nodup) {raw : I} {e : E} :
    firstMatch l raw = some e ↔ (raw, e) ∈ l := by
  induction l with
  | nil => simp [firstMatch]
  | cons p t ih =>
    obtain ⟨k, v⟩ := p
    simp only [List.map_cons, List.nodup_cons] at hnd
    by_cases hk : k = raw
    · subst hk
      rw [show firstMatch ((k, v) :: t) k = some v from by simp [firstMatch]]
      constructor
      · intro hv
        injection hv with hv
        subst hv
        exact List.mem_cons_self _ _
      · intro hmem
        rcases List.mem_cons.mp hmem with heq | hmem'
        · rw [Prod.mk.injEq] at heq
          exact congrArg some heq.2.symm
        · exact absurd (List.mem_map_of_mem Prod.fst hmem') hnd.1
    · simp only [firstMatch, if_neg hk, List.mem_cons, Prod.mk.injEq,
        ih hnd.2]
      constructor
      · exact Or.inr
      · rintro (⟨rfl, -⟩ | hmem)
        · exact absurd rfl hk
        · exact hmem

theorem firstMatch_eq_none_iff {E I : Type} [DecidableEq I]
    {l : List (I × E)} {raw : I} :
    firstMatch l raw = none ↔ raw ∉ l.map Prod.fst := by
  induction l with
  | nil => simp [firstMatch]
  | cons p t ih =>
    obtain ⟨k, v⟩ := p
    by_cases hk : k = raw
    · subst hk
      simp [firstMatch]
    · rw [List.map_cons]
      simp only [firstMatch, if_neg hk, List.mem_cons, ih]
      constructor
      · intro h hmem
        rcases hmem with h1 | h2
        · exact hk h1.symm
        · exact h h2
      · intro h hmem
        exact h (Or.inr hmem)

/-- C9: over a declaration list whose raw constants are pairwise
distinct, the generated first-match `from_raw` is independent of the
declaration order; for `Example`, the generated function agrees with
first-match resolution over its declared pairs. -/
theorem c9_order_independent :
    (∀ raw : Nat, Example.from_raw raw = firstMatch examplePairs raw) ∧
    (∀ (E I : Type) [DecidableEq I] (l₁ l₂ : List (I × E)),
      l₁.Perm l₂ → (l₁.map Prod.fst).Nodup →
      ∀ raw : I, firstMatch l₁ raw = firstMatch l₂ raw) := by
  constructor
  · intro raw
    simp only [Example.from_raw, examplePairs, firstMatch, FOO, BAR, BAZ]
    split_ifs with h0 h1 h2 <;> first | rfl | omega
  · intro E I _ l₁ l₂ hperm hnd raw
    have hnd₂ : (l₂.map Prod.fst).Nodup := (hperm.map Prod.fst).nodup_iff.mp hnd
    cases h₁ : firstMatch l₁ raw with
    | none =>
      have hmem := firstMatch_eq_none_iff.mp h₁
      exact (firstMatch_eq_none_iff.mpr
        (fun hm => hmem ((hperm.map Prod.fst).mem_iff.mpr hm))).symm
    | some e =>
      have hm := (firstMatch_eq_some_iff hnd).mp h₁
      exact ((firstMatch_eq_some_iff hnd₂).mpr (hperm.mem_iff.mp hm)).symm

theorem c9_order_independent_witness :
    ([(BAR, Example.Bar), (FOO, Example.Foo), (BAZ, Example.Baz)] :
        List (Nat × Example)).Perm examplePairs ∧
    firstMatch [(BAR, Example.Bar), (FOO, Example.Foo), (BAZ, Example.Baz)] 1 =
      firstMatch examplePairs 1 :=
  ⟨by decide,
    c9_order_independent.2 Example Nat
      [(BAR, Example.Bar), (FOO, Example.Foo), (BAZ, Example.Baz)]
      examplePairs (by decide) (by decide) 1⟩

/-- C10: `Enum::from_raw(e.to_raw()) == e` holds for every `Known`
value and for every `Unknown` value whose raw payload is outside the
declared set, but fails for a directly constructed `Unknown(r)` with
`r` a declared constant, which round-trips to the corresponding
`Known` variant instead. -/
theorem c10_reverse_round_trip :
    (∀ e : Example,
      (Enum.from_raw ((Enum.Known e : ExampleEnum).to_raw) : ExampleEnum) =
        Enum.Known e) ∧
    (∀ r : Nat, r ∉ ([FOO, BAR, BAZ] : List Nat) →
      (Enum.from_raw ((Enum.Unknown r : ExampleEnum).to_raw) : ExampleEnum) =
        Enum.Unknown r) ∧
    (∀ r : Nat, r ∈ ([FOO, BAR, BAZ] : List Nat) →
      ∃ e : Example,
        (Enum.from_raw ((Enum.Unknown r : ExampleEnum).to_raw) : ExampleEnum) =
          Enum.Known e ∧
        (Enum.from_raw ((Enum.Unknown r : ExampleEnum).to_raw) : ExampleEnum) ≠
          Enum.Unknown r) := by
  refine ⟨fun e => by cases e <;> rfl, fun r hr => ?_, fun r hr => ?_⟩
  · simp [Enum.to_raw, Enum.from_raw, rawEnum_from_raw_example,
      example_from_raw_of_not_declared hr]
  · fin_cases hr
    · exact ⟨Example.Foo, by decide, by decide⟩
    · exact ⟨Example.Bar, by decide, by decide⟩
    · exact ⟨Example.Baz, by decide, by decide⟩

theorem c10_reverse_round_trip_witness :
    ((8 : Nat) ∉ ([FOO, BAR, BAZ] : List Nat) ∧
      (Enum.from_raw ((Enum.Unknown 8 : ExampleEnum).to_raw) : ExampleEnum) =
        Enum.Unknown 8) ∧
    (BAR ∈ ([FOO, BAR, BAZ] : List Nat) ∧
      ∃ e : Example,
        (Enum.from_raw ((Enum.Unknown BAR : ExampleEnum).to_raw) :
            ExampleEnum) = Enum.Known e ∧
        (Enum.from_raw ((Enum.Unknown BAR : ExampleEnum).to_raw) :
            ExampleEnum) ≠ Enum.Unknown BAR) :=
  ⟨⟨by decide, c10_reverse_round_trip.2.1 8 (by decide)⟩,
    ⟨by decide, c10_reverse_round_trip.2.2 BAR (by decide)⟩⟩
